import Mathlib

/-!
Verification of the buildkit-client session protocol core.

The definitions below are a shallow embedding of the Rust sources:
  * `src/session/grpc_tunnel.rs` — the tunneled gRPC dispatch, the DiffCopy
    STAT/REQ/DATA state machine (`send_stat_packets_dfs`,
    `send_file_data_packets`, `handle_file_sync_diff_copy_stream`);
  * `src/session/auth.rs` — `AuthServer::find_credentials`, `credentials`;
  * `src/session/secrets.rs` — `SecretsServer::add_secret`, `get_secret`;
  * `src/builder.rs` — `Platform::parse`, `Platform::to_string`.
File names are byte sequences (`List Nat`), matching Rust's byte-wise
`str` ordering used by `entries.sort_by(|a, b| a.0.cmp(&b.0))`.
-/

/-- A file name (or a relative path), as the sequence of its bytes.
Rust compares `String`s byte-wise, so this is the order used by the sort. -/
abbrev Name := List Nat

/-- A node of the filesystem tree served by `FileSyncServer`.
`perm` is the POSIX permission part of `st_mode` (the lower bits);
the full `metadata.permissions().mode()` also carries the type bits,
reconstructed by `stMode` below. -/
inductive FsNode where
  | file (perm : Nat) (content : List Nat)
  | dir (perm : Nat) (children : List (Name × FsNode))

/-- Packet kinds of the fsutil wire protocol
(`PACKET_STAT = 0, PACKET_DATA = 1, PACKET_FIN = 2, PACKET_REQ = 3`). -/
inductive PacketType where
  | stat
  | data
  | fin
  | req
deriving DecidableEq, Repr

/-- Wire code of a packet type (the `r#type: i32` field of the protobuf). -/
def PacketType.code : PacketType → Nat
  | .stat => 0
  | .data => 1
  | .fin => 2
  | .req => 3

/-- The fsutil `Stat` protobuf message, with the fields the client sets.
The `xattrs` map is always empty in the source and is omitted. -/
structure Stat where
  path : Name
  mode : Nat
  uid : Nat
  gid : Nat
  size : Nat
  modTime : Nat
  linkname : Name
  devmajor : Nat
  devminor : Nat
deriving DecidableEq, Repr

/-- The fsutil `Packet` protobuf message. -/
structure Packet where
  ptype : PacketType
  stat : Option Stat
  id : Nat
  data : List Nat
deriving DecidableEq, Repr

/-- `S_IFDIR = 0o040000` / `S_IFREG = 0o100000` type bits of a node. -/
def fileTypeBits : FsNode → Nat
  | .file _ _ => 0o100000
  | .dir _ _ => 0o040000

/-- Permission bits stored in a node. -/
def FsNode.perm : FsNode → Nat
  | .file p _ => p
  | .dir p _ => p

/-- The full `st_mode` reported by `metadata.permissions().mode()` on Unix:
type bits plus permission bits. -/
def stMode (n : FsNode) : Nat := fileTypeBits n + n.perm % 0o10000

/-- `metadata.len()`: the byte length of a file.  For a directory the value
is filesystem dependent; the DFS stat phase never uses it (it sends `0` for
directories explicitly), so directories are modelled with length `0`. -/
def metaLen : FsNode → Nat
  | .file _ c => c.length
  | .dir _ _ => 0

/-- `size` field sent in a STAT packet: `0` for directories,
`metadata.len()` for files (grpc_tunnel.rs line 519). -/
def statSize : FsNode → Nat
  | .file _ c => c.length
  | .dir _ _ => 0

/-- The `Stat` message built for one directory entry
(grpc_tunnel.rs lines 513-531). -/
def mkStat (relPath : Name) (node : FsNode) : Stat :=
  { path := relPath
    mode := stMode node
    uid := 0
    gid := 0
    size := statSize node
    modTime := 0
    linkname := []
    devmajor := 0
    devminor := 0 }

/-- The STAT packet built for one directory entry with its assigned id
(grpc_tunnel.rs lines 545-550). -/
def mkStatPacket (i : Nat) (relPath : Name) (node : FsNode) : Packet :=
  { ptype := .stat, stat := some (mkStat relPath node), id := i, data := [] }

/-- The terminator: an empty STAT packet with absent `stat`, sent after the
last real entry (grpc_tunnel.rs lines 348-354). -/
def terminatorStatPacket : Packet :=
  { ptype := .stat, stat := none, id := 0, data := [] }

/-- `format!("{}/{}", prefix, name)` when the prefix is nonempty, else the
name itself (grpc_tunnel.rs lines 503-507); `47` is the byte of `/`. -/
def joinName (pre name : Name) : Name :=
  if pre = [] then name else pre ++ 47 :: name

/-- Byte-wise lexicographic `<=` on names: the order of Rust's
`a.0.cmp(&b.0)` on `String`s. -/
def nameLe : Name → Name → Bool
  | [], _ => true
  | _ :: _, [] => false
  | a :: as, b :: bs => if a < b then true else if b < a then false else nameLe as bs

/-- The comparison used on directory entries: by name, ascending. -/
def entryLe (a b : Name × FsNode) : Prop := nameLe a.1 b.1 = true

instance : DecidableRel entryLe := fun a b => by
  unfold entryLe; infer_instance

/-- `entries.sort_by(|a, b| a.0.cmp(&b.0))` — a stable sort of the entries
of one directory by byte-wise name comparison ascending
(grpc_tunnel.rs line 499). -/
def sortEntries (l : List (Name × FsNode)) : List (Name × FsNode) :=
  List.insertionSort entryLe l

/-- Termination measure: the number of nodes of a tree. -/
def nodeWeight : FsNode → Nat
  | .file _ _ => 1
  | .dir _ ch => 1 + (ch.attach.map (fun e => nodeWeight e.1.2)).sum
termination_by n => sizeOf n
decreasing_by
  obtain ⟨⟨n, node⟩, hmem⟩ := e
  have h1 := List.sizeOf_lt_of_mem hmem
  simp at h1 ⊢
  omega

/-- Termination measure: total number of nodes below an entry list. -/
def entriesWeight (l : List (Name × FsNode)) : Nat :=
  (l.map (fun e => nodeWeight e.2)).sum

theorem nodeWeight_dir (p : Nat) (ch : List (Name × FsNode)) :
    nodeWeight (FsNode.dir p ch) = 1 + entriesWeight ch := by
  simp only [nodeWeight, entriesWeight]
  rw [List.attach_map_val ch (fun e => nodeWeight e.2)]

theorem entriesWeight_sortEntries (l : List (Name × FsNode)) :
    entriesWeight (sortEntries l) = entriesWeight l :=
  List.Perm.sum_eq (List.Perm.map _ (List.perm_insertionSort entryLe l))

theorem one_le_nodeWeight (n : FsNode) : 1 ≤ nodeWeight n := by
  cases n with
  | file p c => simp [nodeWeight]
  | dir p ch => rw [nodeWeight_dir]; omega

theorem entriesWeight_rest_lt (e : Name × FsNode) (rest : List (Name × FsNode)) :
    entriesWeight rest < entriesWeight (e :: rest) := by
  obtain ⟨n, node⟩ := e
  have := one_le_nodeWeight node
  simp [entriesWeight]
  omega

theorem entriesWeight_sortEntries_lt (name : Name) (p : Nat)
    (ch rest : List (Name × FsNode)) :
    entriesWeight (sortEntries ch) <
      entriesWeight ((name, FsNode.dir p ch) :: rest) := by
  rw [entriesWeight_sortEntries]
  have h1 := nodeWeight_dir p ch
  simp [entriesWeight] at h1 ⊢
  omega

/-- The body of `GrpcTunnel::send_stat_packets_dfs` after the per-directory
sort (grpc_tunnel.rs lines 502-568): walk the (already sorted) entries of
one directory; for each entry emit a STAT packet carrying the next id,
record files in the id map, and recurse into subdirectories (sorting their
entries).  Returns the emitted packets, the id map additions in insertion
order, and the final counter value. -/
def dfsLoop : List (Name × FsNode) → Name → Nat →
    List Packet × List (Nat × FsNode) × Nat
  | [], _, c => ([], [], c)
  | (name, node) :: rest, pre, c =>
    let rel := joinName pre name
    let pkt := mkStatPacket c rel node
    match node with
    | FsNode.file perm content =>
        let r := dfsLoop rest pre (c + 1)
        (pkt :: r.1, (c, FsNode.file perm content) :: r.2.1, r.2.2)
    | FsNode.dir _ ch =>
        let sub := dfsLoop (sortEntries ch) rel (c + 1)
        let r := dfsLoop rest pre sub.2.2
        (pkt :: (sub.1 ++ r.1), sub.2.1 ++ r.2.1, r.2.2)
termination_by l _ _ => entriesWeight l
decreasing_by
  all_goals first
    | apply entriesWeight_sortEntries_lt
    | apply entriesWeight_rest_lt

/-- `GrpcTunnel::send_stat_packets_dfs` (grpc_tunnel.rs lines 473-572):
read the entries of a directory, sort them by name ascending, then walk
them depth-first as in `dfsLoop`. -/
def send_stat_packets_dfs (children : List (Name × FsNode)) (pre : Name)
    (c : Nat) : List Packet × List (Nat × FsNode) × Nat :=
  dfsLoop (sortEntries children) pre c

/-- The spec's depth-first enumeration of a tree in which each directory's
children are sorted by byte-wise name comparison ascending (spec §4.4
Phase 1, §8 invariant 1).  Written from the spec's words, to be compared
with the packet stream the code emits.  Takes an already sorted entry
list; each entry is listed (with its relative path) before the recursively
enumerated contents of its subdirectory. -/
def dfsEnumLoop : List (Name × FsNode) → Name → List (Name × FsNode)
  | [], _ => []
  | (name, node) :: rest, pre =>
    let rel := joinName pre name
    (rel, node) ::
      ((match node with
        | FsNode.dir _ ch => dfsEnumLoop (sortEntries ch) rel
        | _ => []) ++ dfsEnumLoop rest pre)
termination_by l _ => entriesWeight l
decreasing_by
  all_goals first
    | apply entriesWeight_sortEntries_lt
    | apply entriesWeight_rest_lt

/-- The spec's depth-first, per-directory-sorted enumeration of a whole
tree, given the entries of the root. -/
def dfsEnumeration (children : List (Name × FsNode)) : List (Name × FsNode) :=
  dfsEnumLoop (sortEntries children) []

/-- The STAT phase of a full-context DiffCopy call
(grpc_tunnel.rs lines 325-354): the depth-first packets starting with
prefix `""` and id counter `0`, followed by the terminator STAT. -/
def fullContextStatPhase (root : List (Name × FsNode)) : List Packet :=
  (send_stat_packets_dfs root [] 0).1 ++ [terminatorStatPacket]

/-- The id map built by the STAT phase of a full-context DiffCopy call. -/
def fullContextFileMap (root : List (Name × FsNode)) : List (Nat × FsNode) :=
  (send_stat_packets_dfs root [] 0).2.1

/-- Chunking of `GrpcTunnel::send_file_data_packets`
(grpc_tunnel.rs lines 625-641): successive `file.read` calls each return
at most `32 * 1024` bytes, until a read returns `0` bytes. -/
def readChunks (content : List Nat) : List (List Nat) :=
  if h : content = [] then []
  else content.take (32 * 1024) :: readChunks (content.drop (32 * 1024))
termination_by content.length
decreasing_by
  have hp : 0 < content.length := List.length_pos.mpr h
  simp
  omega

/-- `GrpcTunnel::send_file_data_packets` (grpc_tunnel.rs lines 612-656):
one DATA packet per read chunk, in file order, followed by one empty DATA
packet with the same id as end-of-file.  No FIN packet is produced. -/
def send_file_data_packets (content : List Nat) (req_id : Nat) : List Packet :=
  (readChunks content).map
    (fun chunk => { ptype := .data, stat := none, id := req_id, data := chunk }) ++
  [{ ptype := .data, stat := none, id := req_id, data := [] }]

/-- `file_map.get(&packet.id)` — lookup in the id map. -/
def lookupFm : List (Nat × FsNode) → Nat → Option FsNode
  | [], _ => none
  | (k, v) :: rest, i => if k = i then some v else lookupFm rest i

/-- The REQ branch of the DiffCopy loop (grpc_tunnel.rs lines 404-416):
an id present in the map streams the file; an absent id is logged and
ignored, emitting nothing.  A directory node in the map (possible only via
the dockerfile branch) makes `file.read` fail with EISDIR before any DATA
is emitted; the error is logged and the loop continues. -/
def handleReqPacket (fm : List (Nat × FsNode)) (i : Nat) : List Packet :=
  match lookupFm fm i with
  | some (FsNode.file _ content) => send_file_data_packets content i
  | some (FsNode.dir _ _) => []
  | none => []

/-- One step of the inbound packet loop (grpc_tunnel.rs lines 403-426):
`REQ` emits the requested file's data and continues, `FIN` stops the loop,
any other kind is logged and ignored.  Returns the packets written to the
send stream and whether the loop keeps running. -/
def reqLoopStep (fm : List (Nat × FsNode)) (p : Packet) : List Packet × Bool :=
  match p.ptype with
  | .req => (handleReqPacket fm p.id, true)
  | .fin => ([], false)
  | _ => ([], true)

/-- A REQ packet for a given id, as the daemon sends it. -/
def mkReqPacket (i : Nat) : Packet :=
  { ptype := .req, stat := none, id := i, data := [] }

/-- The bytes of the name `Dockerfile`. -/
def dockerfileName : Name := [68, 111, 99, 107, 101, 114, 102, 105, 108, 101]

/-- `root_path.join("Dockerfile").exists()` and the following metadata
read: any root entry with that name, file or directory. -/
def lookupEntry : List (Name × FsNode) → Name → Option FsNode
  | [], _ => none
  | (k, v) :: rest, n => if k = n then some v else lookupEntry rest n

/-- A failed RPC: the `grpc-status` trailer and the `grpc-message`. -/
structure GrpcFailure where
  status : Nat
  message : String
deriving DecidableEq, Repr

/-- The `dir-name: dockerfile` branch of the DiffCopy handler
(grpc_tunnel.rs lines 267-324), followed by the shared terminator
(lines 347-354).  `dockerfile_path.exists()` is false only when no entry
of that name exists: then the RPC aborts with `grpc-status: 2`,
message "Dockerfile not found".  Otherwise one STAT packet with id `0`
and the entry's metadata is sent, id `0` is recorded in the id map
unconditionally, and the terminator follows. -/
def handleDiffCopyDockerfile (root : List (Name × FsNode)) :
    Except GrpcFailure (List Packet × List (Nat × FsNode)) :=
  match lookupEntry root dockerfileName with
  | none => .error { status := 2, message := "Dockerfile not found" }
  | some node =>
      .ok ([{ ptype := .stat,
              stat := some { path := dockerfileName, mode := stMode node,
                             uid := 0, gid := 0, size := metaLen node,
                             modTime := 0, linkname := [], devmajor := 0,
                             devminor := 0 },
              id := 0, data := [] },
            terminatorStatPacket],
           [(0, node)])

/-- The unary handlers reachable from the routing table. -/
inductive UnaryHandler where
  | healthCheck
  | credentials
  | fetchToken
  | getSecret
deriving DecidableEq, Repr

/-- What `GrpcTunnel::handle_request` does with a request path. -/
inductive RouteAction where
  | unary (h : UnaryHandler)
  | diffCopy
  | errorResponse (message : String)
deriving DecidableEq, Repr

/-- The routing table of `GrpcTunnel::handle_request`
(grpc_tunnel.rs lines 100-136).  `GetTokenAuthority` and unknown paths go
to `send_error_response`. -/
def handle_request_route (path : String) : RouteAction :=
  match path with
  | "/grpc.health.v1.Health/Check" => .unary .healthCheck
  | "/moby.filesync.v1.FileSync/DiffCopy" => .diffCopy
  | "/moby.filesync.v1.Auth/GetTokenAuthority" =>
      .errorResponse "Token auth not implemented"
  | "/moby.filesync.v1.Auth/Credentials" => .unary .credentials
  | "/moby.filesync.v1.Auth/FetchToken" => .unary .fetchToken
  | "/moby.buildkit.secrets.v1.Secrets/GetSecret" => .unary .getSecret
  | _ => .errorResponse "Unimplemented"

/-- The response `GrpcTunnel::send_error_response` writes: headers with
`grpc-status` and `grpc-message` (grpc_tunnel.rs lines 197-214). -/
structure GrpcErrorResponse where
  grpcStatus : Nat
  grpcMessage : String
deriving DecidableEq, Repr

/-- `GrpcTunnel::send_error_response`: always `grpc-status: 12`
(UNIMPLEMENTED) with the given message. -/
def send_error_response (message : String) : GrpcErrorResponse :=
  { grpcStatus := 12, grpcMessage := message }

/-- The response `GrpcTunnel::send_success_response` writes
(grpc_tunnel.rs lines 160-194): the payload (the 5-byte gRPC framing is
not modelled) and trailers with `grpc-status: 0`. -/
structure UnarySuccessResponse where
  grpcStatus : Nat
  payload : List Nat
deriving DecidableEq, Repr

/-- `GrpcTunnel::send_success_response`: trailers always carry
`grpc-status: 0`. -/
def send_success_response (payload : List Nat) : UnarySuccessResponse :=
  { grpcStatus := 0, payload := payload }

/-- `RegistryAuthConfig` (auth.rs lines 16-23). -/
structure RegistryAuthConfig where
  host : String
  username : String
  password : String
deriving DecidableEq, Repr

/-- Rust `str::contains`: substring test, as infix of the char data. -/
def strContains (s pat : String) : Bool := decide (pat.data <:+: s.data)

/-- `AuthServer::find_credentials` (auth.rs lines 71-78): first registry
in list order whose host matches exactly, or is contained in the requested
host, or is `docker.io` while the daemon asks for `registry-1.docker.io`
or `index.docker.io`. -/
def find_credentials (registries : List RegistryAuthConfig) (host : String) :
    Option RegistryAuthConfig :=
  registries.find? (fun r =>
    r.host == host ||
    strContains host r.host ||
    (r.host == "docker.io" &&
      (host == "registry-1.docker.io" || host == "index.docker.io")))

/-- `CredentialsResponse` (proto): username and secret, both possibly empty. -/
structure CredentialsResponse where
  username : String
  secret : String
deriving DecidableEq, Repr

/-- A tonic `Status`: gRPC code plus message. -/
structure GrpcStatus where
  code : Nat
  message : String
deriving DecidableEq, Repr

/-- `Status::not_found` — gRPC code 5 (NOT_FOUND). -/
def statusNotFound (msg : String) : GrpcStatus := { code := 5, message := msg }

/-- `AuthServer::credentials` (auth.rs lines 83-104): the matched
registry's credentials, or two empty strings; the call never fails. -/
def credentials (registries : List RegistryAuthConfig) (host : String) :
    Except GrpcStatus CredentialsResponse :=
  match find_credentials registries host with
  | some config => .ok { username := config.username, secret := config.password }
  | none => .ok { username := "", secret := "" }

/-- The spec's host-matching rule (§3): exact match, or the registered
host contained in the requested host, or the `docker.io` alias matching
`registry-1.docker.io` and `index.docker.io`.  Written from the claim's
words, to be compared with the predicate `find_credentials` tests. -/
def hostRuleMatches (r : RegistryAuthConfig) (host : String) : Prop :=
  r.host = host ∨ r.host.data <:+: host.data ∨
  (r.host = "docker.io" ∧
    (host = "registry-1.docker.io" ∨ host = "index.docker.io"))

/-- `MAX_SECRET_SIZE` (secrets.rs line 11). -/
def MAX_SECRET_SIZE : Nat := 500 * 1024

/-- `SecretsServer` (secrets.rs lines 17-20): the id-to-bytes map,
modelled as an association list with `HashMap` insert/get semantics. -/
structure SecretsServer where
  secrets : List (String × List Nat)
deriving DecidableEq, Repr

/-- `HashMap::insert`: replace the value of an existing key, else append. -/
def mapInsert : List (String × List Nat) → String → List Nat →
    List (String × List Nat)
  | [], i, d => [(i, d)]
  | (k, v) :: rest, i, d =>
      if k = i then (i, d) :: rest else (k, v) :: mapInsert rest i d

/-- `HashMap::get`. -/
def mapLookup : List (String × List Nat) → String → Option (List Nat)
  | [], _ => none
  | (k, v) :: rest, i => if k = i then some v else mapLookup rest i

/-- `SecretsServer::add_secret` (secrets.rs lines 57-63), embedding the
`&mut self` method as state passing: the `Result` and the server state
after the call.  Oversized data is rejected before the map is touched. -/
def add_secret (s : SecretsServer) (id : String) (data : List Nat) :
    Except String Unit × SecretsServer :=
  if data.length > MAX_SECRET_SIZE then
    (.error ("Secret size " ++ toString data.length ++
             " exceeds maximum of " ++ toString MAX_SECRET_SIZE), s)
  else
    (.ok (), { secrets := mapInsert s.secrets id data })

/-- `value.as_ref().as_bytes().to_vec()`: the UTF-8 bytes of a string. -/
def strBytes (v : String) : List Nat := v.toUTF8.toList.map (fun b => b.toNat)

/-- `SecretsServer::add_secret_string` (secrets.rs lines 80-82). -/
def add_secret_string (s : SecretsServer) (id : String) (v : String) :
    Except String Unit × SecretsServer :=
  add_secret s id (strBytes v)

/-- The loop of `SecretsServer::from_map` (secrets.rs lines 100-106):
`add_secret_string` per entry, propagating the first error. -/
def from_map_loop : List (String × String) → SecretsServer →
    Except String SecretsServer
  | [], s => .ok s
  | (id, v) :: rest, s =>
      match add_secret_string s id v with
      | (.error e, _) => .error e
      | (.ok _, s1) => from_map_loop rest s1

/-- `SecretsServer::from_map`: fold over the entries starting from an
empty server. -/
def from_map (entries : List (String × String)) : Except String SecretsServer :=
  from_map_loop entries { secrets := [] }

/-- `SecretsServer::get_secret` (secrets.rs lines 111-127): the stored
bytes, or `Status::not_found("secret <id> not found")`. -/
def get_secret (s : SecretsServer) (id : String) : Except GrpcStatus (List Nat) :=
  match mapLookup s.secrets id with
  | some data => .ok data
  | none => .error (statusNotFound ("secret " ++ id ++ " not found"))

/-- Modelled from the spec: the two secrets variants of the crate error
type (`Error::SecretNotFound`, `Error::SecretsNotConfigured`;
src/error.rs is not among the sources).  Spec §4.6: a missing id fails
NOT_FOUND with `"secret <id> not found"`, while an unconfigured Secrets
service fails "with a distinct message". -/
inductive SecretsHandlerError where
  | secretNotFound (message : String)
  | secretsNotConfigured
deriving DecidableEq, Repr

/-- `GrpcTunnel::handle_secrets_get_secret` (grpc_tunnel.rs lines
774-807): delegate to the configured `SecretsServer`, wrapping its
NOT_FOUND status; fail with the distinct not-configured error when no
Secrets service is registered. -/
def handle_secrets_get_secret (secrets : Option SecretsServer) (id : String) :
    Except SecretsHandlerError (List Nat) :=
  match secrets with
  | some s =>
      match get_secret s id with
      | .ok data => .ok data
      | .error status => .error (.secretNotFound status.message)
  | none => .error .secretsNotConfigured

/-- What the daemon observes on the HTTP/2 stream of one tunneled unary
call: either a gRPC response (headers, framed payload, trailers with a
`grpc-status`), or no gRPC response at all — the handler task returned
`Err`, `serve` only logged it (grpc_tunnel.rs lines 64-68), and the
dropped `SendResponse` reset the stream without writing any trailer. -/
inductive WireOutcome where
  | response (r : UnarySuccessResponse)
  | streamReset
deriving DecidableEq, Repr

/-- The GetSecret arm of `GrpcTunnel::handle_request` (grpc_tunnel.rs
lines 127-131) combined with `serve`'s error handling: on `Ok` the
payload is sent by `send_success_response` (trailers `grpc-status: 0`;
the protobuf encoding of `GetSecretResponse` is not modelled, the payload
stands for the encoded reply carrying exactly the stored bytes); on `Err`
the `?` operator propagates the error out of `handle_request`, the
spawned task only logs it, and the stream is reset — no `grpc-status`
trailer of any kind reaches the daemon. -/
def getSecretWireOutcome (secrets : Option SecretsServer) (id : String) :
    WireOutcome :=
  match handle_secrets_get_secret secrets id with
  | .ok data => .response (send_success_response data)
  | .error _ => .streamReset

/-- `Platform` (builder.rs lines 31-36), strings as char sequences. -/
structure Platform where
  os : List Char
  arch : List Char
  variant : Option (List Char)
deriving DecidableEq, Repr

/-- The character `/`. -/
def slashChar : Char := Char.ofNat 47

/-- Rust `s.split('/')`: split at every `/`, keeping empty parts;
splitting the empty string yields one empty part. -/
def splitSlash : List Char → List (List Char)
  | [] => [[]]
  | ch :: rest =>
      match splitSlash rest with
      | [] => [[]]
      | h :: t => if ch = slashChar then [] :: h :: t else (ch :: h) :: t

/-- `Platform::parse` (builder.rs lines 58-73): exactly two or three
slash-separated parts are accepted. -/
def Platform.parse (s : List Char) : Except String Platform :=
  match splitSlash s with
  | [os, arch] => .ok { os := os, arch := arch, variant := none }
  | [os, arch, variant] => .ok { os := os, arch := arch, variant := some variant }
  | _ => .error ("Invalid platform format: " ++ String.mk s)

/-- `Platform::to_string` (builder.rs lines 76-82). -/
def Platform.to_string (p : Platform) : List Char :=
  match p.variant with
  | some v => p.os ++ slashChar :: p.arch ++ slashChar :: v
  | none => p.os ++ slashChar :: p.arch

/-- Joining with `/` — the inverse of `splitSlash`, used to state the
round-trip. -/
def joinSlash : List (List Char) → List Char
  | [] => []
  | [x] => x
  | x :: y :: t => x ++ slashChar :: joinSlash (y :: t)

/-- The STAT packet the spec expects for the enumeration entry at a given
id: metadata of the entry, id in emission order. -/
def specStatPacket (q : Nat × (Name × FsNode)) : Packet :=
  mkStatPacket q.1 q.2.1 q.2.2

/-- The id-map record the spec expects for an enumeration entry: files
keep their id, directories are not recorded. -/
def fileEntryOfEnum (q : Nat × (Name × FsNode)) : Option (Nat × FsNode) :=
  match q.2.2 with
  | FsNode.file perm content => some (q.1, FsNode.file perm content)
  | FsNode.dir _ _ => none

theorem dfsLoop_eq (l : List (Name × FsNode)) (pre : Name) (c : Nat) :
    dfsLoop l pre c =
      ((List.enumFrom c (dfsEnumLoop l pre)).map specStatPacket,
       (List.enumFrom c (dfsEnumLoop l pre)).filterMap fileEntryOfEnum,
       c + (dfsEnumLoop l pre).length) := by
  induction l, pre, c using dfsLoop.induct with
  | case1 pre c =>
      simp [dfsLoop, dfsEnumLoop]
  | case2 name rest pre c perm content ih =>
      simp only [dfsLoop, dfsEnumLoop]
      rw [ih]
      simp [specStatPacket, fileEntryOfEnum, List.enumFrom_cons, Prod.mk.injEq]
      omega
  | case3 name rest pre c =>
      rename_i rel perm ch sub ih1 ihdup ih2
      clear ihdup
      have hrel : rel = joinName pre name := rfl
      have hsub : sub = dfsLoop (sortEntries ch) rel (c + 1) := rfl
      rw [hsub, ih1] at ih2
      simp only [hrel] at ih1 ih2
      simp only [dfsLoop, dfsEnumLoop]
      rw [ih1]
      simp only [] at ih2 ⊢
      rw [ih2]
      simp [specStatPacket, fileEntryOfEnum, List.enumFrom_cons,
        List.enumFrom_append, Prod.mk.injEq]
      omega

theorem readChunks_flatten (content : List Nat) :
    (readChunks content).flatten = content := by
  induction content using readChunks.induct with
  | case1 =>
      rw [readChunks]
      simp
  | case2 content hc ih =>
      rw [readChunks]
      simp only [hc, reduceDIte, List.flatten_cons]
      rw [ih, List.take_append_drop]

theorem readChunks_mem (content : List Nat) :
    ∀ ch ∈ readChunks content, ch ≠ [] ∧ ch.length ≤ 32 * 1024 := by
  induction content using readChunks.induct with
  | case1 =>
      rw [readChunks]
      simp
  | case2 content hc ih =>
      rw [readChunks]
      simp only [hc, reduceDIte, List.mem_cons]
      intro ch hch
      rcases hch with rfl | hch
      · constructor
        · simp [List.take_eq_nil_iff, hc]
        · simp [List.length_take]
      · exact ih ch hch

theorem mapLookup_mapInsert (m : List (String × List Nat)) (i : String)
    (d : List Nat) : mapLookup (mapInsert m i d) i = some d := by
  induction m with
  | nil => simp [mapInsert, mapLookup]
  | cons e rest ih =>
      obtain ⟨k, v⟩ := e
      by_cases hk : k = i
      · simp [mapInsert, mapLookup, hk]
      · simp [mapInsert, mapLookup, hk, ih]

theorem from_map_loop_error (entries : List (String × String)) :
    ∀ s, (∃ p ∈ entries, MAX_SECRET_SIZE < (strBytes p.2).length) →
      ∃ msg, from_map_loop entries s = .error msg := by
  induction entries with
  | nil => intro s h; simp at h
  | cons e rest ih =>
      intro s h
      obtain ⟨id, v⟩ := e
      by_cases hbig : MAX_SECRET_SIZE < (strBytes v).length
      · have herr : from_map_loop ((id, v) :: rest) s =
            Except.error ("Secret size " ++ toString (strBytes v).length ++
              " exceeds maximum of " ++ toString MAX_SECRET_SIZE) := by
          simp [from_map_loop, add_secret_string, add_secret, hbig]
        exact ⟨_, herr⟩
      · obtain ⟨p, hp, hlen⟩ := h
        rcases List.mem_cons.mp hp with rfl | hp
        · exact absurd hlen hbig
        · obtain ⟨msg, hmsg⟩ :=
            ih { secrets := mapInsert s.secrets id (strBytes v) } ⟨p, hp, hlen⟩
          refine ⟨msg, ?_⟩
          simpa [from_map_loop, add_secret_string, add_secret, hbig] using hmsg

theorem splitSlash_ne_nil (s : List Char) : splitSlash s ≠ [] := by
  cases s with
  | nil => simp [splitSlash]
  | cons ch rest =>
      rw [splitSlash]
      cases splitSlash rest with
      | nil => simp
      | cons h t =>
          by_cases hch : ch = slashChar <;> simp [hch]

theorem joinSlash_splitSlash (s : List Char) : joinSlash (splitSlash s) = s := by
  induction s with
  | nil => rfl
  | cons ch rest ih =>
      rw [splitSlash]
      cases hsp : splitSlash rest with
      | nil => exact absurd hsp (splitSlash_ne_nil rest)
      | cons h t =>
          rw [hsp] at ih
          by_cases hch : ch = slashChar
          · simp only [hch, if_true, joinSlash]
            rw [ih]
            simp
          · simp only [hch, if_false, reduceIte]
            cases t with
            | nil =>
                simp only [joinSlash] at ih ⊢
                rw [ih]
            | cons y t2 =>
                simp only [joinSlash] at ih ⊢
                rw [List.cons_append, ih]

/-- Boundary check (spec §8): an empty context emits only the terminator
STAT packet. -/
theorem fullContextStatPhase_empty :
    fullContextStatPhase [] = [terminatorStatPacket] := by
  simp [fullContextStatPhase, send_stat_packets_dfs, sortEntries,
    List.insertionSort, dfsLoop]

/-- C1: in full-context mode the emitted STAT packets before the
terminator are exactly the depth-first, per-directory byte-wise-sorted
enumeration of the tree, with ids `0, 1, 2, ...` assigned in emission
order (so the id sequence is `List.range`, strictly ascending from 0);
every packet of that prefix is a STAT with a present `stat` field, and
exactly one terminator STAT with an absent `stat` field follows. -/
theorem diffCopy_full_context_stat_order (root : List (Name × FsNode)) :
    fullContextStatPhase root =
      (List.enumFrom 0 (dfsEnumeration root)).map specStatPacket ++
        [terminatorStatPacket]
    ∧ ((send_stat_packets_dfs root [] 0).1).map Packet.id =
        List.range (dfsEnumeration root).length
    ∧ (∀ p ∈ (send_stat_packets_dfs root [] 0).1,
        p.ptype = PacketType.stat ∧ p.stat.isSome = true)
    ∧ terminatorStatPacket.ptype = PacketType.stat
    ∧ terminatorStatPacket.stat = none := by
  have h := dfsLoop_eq (sortEntries root) [] 0
  refine ⟨?_, ?_, ?_, rfl, rfl⟩
  · unfold fullContextStatPhase send_stat_packets_dfs dfsEnumeration
    rw [h]
  · unfold send_stat_packets_dfs dfsEnumeration
    rw [h]
    simp only [List.map_map]
    have hcomp : (Packet.id ∘ specStatPacket) =
        (Prod.fst : Nat × (Name × FsNode) → Nat) := by
      funext q
      simp [specStatPacket, mkStatPacket]
    rw [hcomp, List.enumFrom_map_fst, ← List.range_eq_range']
  · unfold send_stat_packets_dfs
    rw [h]
    intro p hp
    simp only [List.mem_map] at hp
    obtain ⟨q, _, rfl⟩ := hp
    simp [specStatPacket, mkStatPacket]

/-- C4: the id map built by the full-context STAT phase records exactly
the FILE entries of the enumeration (directories never enter it), and a
REQ for an id absent from the map emits no packets and leaves the loop
running instead of failing the RPC. -/
theorem diffCopy_fileMap_only_files (root : List (Name × FsNode)) (i : Nat) :
    fullContextFileMap root =
      (List.enumFrom 0 (dfsEnumeration root)).filterMap fileEntryOfEnum
    ∧ (∀ q ∈ fullContextFileMap root, ∃ perm content,
        q.2 = FsNode.file perm content)
    ∧ (lookupFm (fullContextFileMap root) i = none →
        reqLoopStep (fullContextFileMap root) (mkReqPacket i) = ([], true)) := by
  have h := dfsLoop_eq (sortEntries root) [] 0
  have hmap : fullContextFileMap root =
      (List.enumFrom 0 (dfsEnumeration root)).filterMap fileEntryOfEnum := by
    unfold fullContextFileMap send_stat_packets_dfs dfsEnumeration
    rw [h]
  refine ⟨hmap, ?_, ?_⟩
  · intro q hq
    rw [hmap] at hq
    simp only [List.mem_filterMap] at hq
    obtain ⟨a, _, ha⟩ := hq
    unfold fileEntryOfEnum at ha
    cases hnode : a.2.2 with
    | file perm content =>
        rw [hnode] at ha
        simp only [Option.some.injEq] at ha
        exact ⟨perm, content, by rw [← ha]⟩
    | dir p ch =>
        rw [hnode] at ha
        simp at ha
  · intro hnone
    simp [reqLoopStep, mkReqPacket, handleReqPacket, hnone]

/-- C2: a REQ whose id is in the id map makes the handler emit the file's
bytes as DATA packets with that id, each at most 32 KiB, in file order,
whose payloads concatenate to exactly the file's contents, followed by
exactly one empty DATA packet with the same id; no FIN packet appears. -/
theorem req_in_map_streams_file (fm : List (Nat × FsNode)) (i perm : Nat)
    (content : List Nat)
    (h : lookupFm fm i = some (FsNode.file perm content)) :
    reqLoopStep fm (mkReqPacket i) = (send_file_data_packets content i, true)
    ∧ (∀ p ∈ send_file_data_packets content i,
        p.ptype = PacketType.data ∧ p.id = i ∧ p.data.length ≤ 32 * 1024 ∧
        p.ptype ≠ PacketType.fin)
    ∧ ((send_file_data_packets content i).dropLast.map Packet.data).flatten =
        content
    ∧ (∀ p ∈ (send_file_data_packets content i).dropLast, p.data ≠ [])
    ∧ (send_file_data_packets content i).getLast? =
        some { ptype := PacketType.data, stat := none, id := i, data := [] } := by
  refine ⟨?_, ?_, ?_, ?_, ?_⟩
  · simp [reqLoopStep, mkReqPacket, handleReqPacket, h]
  · intro p hp
    unfold send_file_data_packets at hp
    rcases List.mem_append.mp hp with hp | hp
    · simp only [List.mem_map] at hp
      obtain ⟨ch, hch, rfl⟩ := hp
      exact ⟨rfl, rfl, (readChunks_mem content ch hch).2, by simp⟩
    · simp only [List.mem_singleton] at hp
      subst hp
      exact ⟨rfl, rfl, by simp, by simp⟩
  · unfold send_file_data_packets
    rw [List.dropLast_concat, List.map_map]
    have hcomp : (Packet.data ∘ (fun chunk =>
        ({ ptype := .data, stat := none, id := i, data := chunk } : Packet))) =
        id := by
      funext ch
      rfl
    rw [hcomp, List.map_id, readChunks_flatten]
  · unfold send_file_data_packets
    rw [List.dropLast_concat]
    intro p hp
    simp only [List.mem_map] at hp
    obtain ⟨ch, hch, rfl⟩ := hp
    exact (readChunks_mem content ch hch).1
  · unfold send_file_data_packets
    exact List.getLast?_concat _

/-- C2 witness: a concrete map entry `0 ↦ file [1,2,3]` satisfies the
hypothesis, and the REQ step streams that file. -/
theorem req_in_map_streams_file_witness :
    lookupFm [(0, FsNode.file 420 [1, 2, 3])] 0 =
      some (FsNode.file 420 [1, 2, 3])
    ∧ reqLoopStep [(0, FsNode.file 420 [1, 2, 3])] (mkReqPacket 0) =
        (send_file_data_packets [1, 2, 3] 0, true) := by
  have hl : lookupFm [(0, FsNode.file 420 [1, 2, 3])] 0 =
      some (FsNode.file 420 [1, 2, 3]) := by
    simp [lookupFm]
  exact ⟨hl, (req_in_map_streams_file _ 0 420 [1, 2, 3] hl).1⟩

/-- C3 counterexample: with a *directory* named `Dockerfile` at the root,
no file of that name exists, yet the handler does not fail with
grpc-status 2 — it sends a STAT whose mode carries the DIR type bits
(`0o040755`), because the code only tests `dockerfile_path.exists()`. -/
theorem dockerfile_dir_not_failed :
    (∀ perm content,
        lookupEntry [(dockerfileName, FsNode.dir 493 [])] dockerfileName ≠
          some (FsNode.file perm content))
    ∧ handleDiffCopyDockerfile [(dockerfileName, FsNode.dir 493 [])] =
        Except.ok
          ([{ ptype := PacketType.stat,
              stat := some { path := dockerfileName, mode := 0o040755,
                             uid := 0, gid := 0, size := 0, modTime := 0,
                             linkname := [], devmajor := 0, devminor := 0 },
              id := 0, data := [] },
            terminatorStatPacket],
           [(0, FsNode.dir 493 [])])
    ∧ (∀ failure,
        handleDiffCopyDockerfile [(dockerfileName, FsNode.dir 493 [])] ≠
          Except.error failure) := by
  have hok : handleDiffCopyDockerfile [(dockerfileName, FsNode.dir 493 [])] =
      Except.ok
        ([{ ptype := PacketType.stat,
            stat := some { path := dockerfileName, mode := 0o040755,
                           uid := 0, gid := 0, size := 0, modTime := 0,
                           linkname := [], devmajor := 0, devminor := 0 },
            id := 0, data := [] },
          terminatorStatPacket],
         [(0, FsNode.dir 493 [])]) := by
    rfl
  refine ⟨?_, hok, ?_⟩
  · intro perm content hcontra
    simp [lookupEntry] at hcontra
  · intro failure hcontra
    rw [hok] at hcontra
    exact Except.noConfusion hcontra

/-- C3 amended: if an entry named `Dockerfile` exists at the root (of any
kind), the handler sends exactly one STAT packet with id 0, path
`Dockerfile` and that entry's metadata (the mode carrying the entry's own
type bits), followed by the terminator; if no entry of that name exists,
the RPC fails with grpc-status 2. -/
theorem dockerfile_mode_amended (root : List (Name × FsNode)) :
    (lookupEntry root dockerfileName = none →
      handleDiffCopyDockerfile root =
        Except.error { status := 2, message := "Dockerfile not found" })
    ∧ (∀ node, lookupEntry root dockerfileName = some node →
        handleDiffCopyDockerfile root =
          Except.ok
            ([{ ptype := PacketType.stat,
                stat := some { path := dockerfileName, mode := stMode node,
                               uid := 0, gid := 0, size := metaLen node,
                               modTime := 0, linkname := [], devmajor := 0,
                               devminor := 0 },
                id := 0, data := [] },
              terminatorStatPacket],
             [(0, node)]))
    ∧ (∀ node, fileTypeBits node ≤ stMode node ∧
        stMode node < fileTypeBits node + 0o10000) := by
  refine ⟨?_, ?_, ?_⟩
  · intro h
    simp [handleDiffCopyDockerfile, h]
  · intro node h
    simp [handleDiffCopyDockerfile, h]
  · intro node
    have hm : node.perm % 0o10000 < 0o10000 := Nat.mod_lt _ (by norm_num)
    unfold stMode
    omega

/-- C3 amended witness: a regular file `Dockerfile` at the root is sent
as a single FILE STAT with id 0 followed by the terminator. -/
theorem dockerfile_mode_amended_witness :
    lookupEntry [(dockerfileName, FsNode.file 420 [104, 105])] dockerfileName =
      some (FsNode.file 420 [104, 105])
    ∧ handleDiffCopyDockerfile [(dockerfileName, FsNode.file 420 [104, 105])] =
        Except.ok
          ([{ ptype := PacketType.stat,
              stat := some { path := dockerfileName,
                             mode := stMode (FsNode.file 420 [104, 105]),
                             uid := 0, gid := 0,
                             size := metaLen (FsNode.file 420 [104, 105]),
                             modTime := 0, linkname := [], devmajor := 0,
                             devminor := 0 },
              id := 0, data := [] },
            terminatorStatPacket],
           [(0, FsNode.file 420 [104, 105])]) := by
  have hl : lookupEntry [(dockerfileName, FsNode.file 420 [104, 105])]
      dockerfileName = some (FsNode.file 420 [104, 105]) := by
    simp [lookupEntry]
  exact ⟨hl, (dockerfile_mode_amended _).2.1 _ hl⟩

/-- C5: the routing table answers every request to
`/moby.filesync.v1.Auth/GetTokenAuthority` with the error response, which
always carries `grpc-status: 12` and here the message
"Token auth not implemented". -/
theorem get_token_authority_unimplemented :
    handle_request_route "/moby.filesync.v1.Auth/GetTokenAuthority" =
      RouteAction.errorResponse "Token auth not implemented"
    ∧ (send_error_response "Token auth not implemented").grpcStatus = 12
    ∧ (send_error_response "Token auth not implemented").grpcMessage =
        "Token auth not implemented" := by
  exact ⟨rfl, rfl, rfl⟩

/-- C4 witness: a context consisting of one empty directory records no id
in the map, and a REQ for the directory's id 0 emits nothing and keeps
the loop running. -/
theorem diffCopy_fileMap_only_files_witness :
    lookupFm (fullContextFileMap [([97], FsNode.dir 493 [])]) 0 = none
    ∧ reqLoopStep (fullContextFileMap [([97], FsNode.dir 493 [])])
        (mkReqPacket 0) = ([], true) := by
  have hm : fullContextFileMap [([97], FsNode.dir 493 [])] = [] := by
    simp [fullContextFileMap, send_stat_packets_dfs, sortEntries,
      List.insertionSort, List.orderedInsert, dfsLoop]
  have hn : lookupFm (fullContextFileMap [([97], FsNode.dir 493 [])]) 0 =
      none := by
    rw [hm]
    simp [lookupFm]
  exact ⟨hn, (diffCopy_fileMap_only_files [([97], FsNode.dir 493 [])] 0).2.2 hn⟩

/-- Supporting lemma for the GetSecret path: the inner `SecretsServer`
returns the stored bytes for a present id and a code-5 NOT_FOUND status
with message `secret <id> not found` for an absent one, and the tunnel's
`handle_secrets_get_secret` maps these to the two crate error variants
(the not-configured variant distinct by construction). -/
theorem get_secret_behaviour (s : SecretsServer) (id : String) :
    (∀ d, mapLookup s.secrets id = some d →
        get_secret s id = .ok d ∧
        handle_secrets_get_secret (some s) id = .ok d ∧
        (∀ payload, (send_success_response payload).grpcStatus = 0))
    ∧ (mapLookup s.secrets id = none →
        get_secret s id =
          .error { code := 5, message := "secret " ++ id ++ " not found" } ∧
        handle_secrets_get_secret (some s) id =
          .error (.secretNotFound ("secret " ++ id ++ " not found")))
    ∧ handle_secrets_get_secret none id =
        Except.error SecretsHandlerError.secretsNotConfigured
    ∧ (∀ msg, SecretsHandlerError.secretsNotConfigured ≠
        SecretsHandlerError.secretNotFound msg) := by
  refine ⟨?_, ?_, rfl, ?_⟩
  · intro d hd
    refine ⟨?_, ?_, fun payload => rfl⟩
    · simp [get_secret, hd]
    · simp [handle_secrets_get_secret, get_secret, hd]
  · intro hn
    constructor
    · simp [get_secret, hn, statusNotFound]
    · simp [handle_secrets_get_secret, get_secret, hn, statusNotFound]
  · intro msg hcontra
    exact SecretsHandlerError.noConfusion hcontra

/-- Concrete instances of `get_secret_behaviour`: a configured secret is
returned verbatim; a missing id yields the code-5 status with the id in
the message. -/
theorem get_secret_behaviour_witness :
    mapLookup [("api_key", [118])] "api_key" = some [118]
    ∧ get_secret { secrets := [("api_key", [118])] } "api_key" =
        Except.ok [118]
    ∧ mapLookup [("api_key", [118])] "missing" = none
    ∧ get_secret { secrets := [("api_key", [118])] } "missing" =
        Except.error { code := 5, message := "secret " ++ "missing" ++ " not found" } := by
  have h1 : mapLookup [("api_key", [118])] "api_key" = some [118] := by
    simp [mapLookup]
  have h2 : mapLookup [("api_key", [118])] "missing" = none := by
    simp [mapLookup]
  exact ⟨h1, ((get_secret_behaviour _ "api_key").1 [118] h1).1, h2,
    ((get_secret_behaviour _ "missing").2.1 h2).1⟩

/-- C7: `credentials` always succeeds; it answers with the credentials of
a registry matching the exact/substring/docker.io-alias rule when one
exists (the first such in list order), and with two empty strings when no
registry matches — never an error for a missing entry. -/
theorem credentials_host_rule (registries : List RegistryAuthConfig)
    (host : String) :
    ∃ resp, credentials registries host = .ok resp ∧
      ((∃ config, find_credentials registries host = some config ∧
          config ∈ registries ∧ hostRuleMatches config host ∧
          resp = { username := config.username, secret := config.password }) ∨
       (find_credentials registries host = none ∧
          (∀ r ∈ registries, ¬ hostRuleMatches r host) ∧
          resp = { username := "", secret := "" })) := by
  have hpred : ∀ r : RegistryAuthConfig,
      (r.host == host || strContains host r.host ||
        (r.host == "docker.io" &&
          (host == "registry-1.docker.io" ||
           host == "index.docker.io"))) = true ↔
      hostRuleMatches r host := by
    intro r
    simp only [strContains, hostRuleMatches, Bool.or_eq_true, Bool.and_eq_true,
      beq_iff_eq, decide_eq_true_eq]
    tauto
  cases hf : find_credentials registries host with
  | some config =>
      have hf2 : List.find? (fun r =>
          r.host == host || strContains host r.host ||
          (r.host == "docker.io" &&
            (host == "registry-1.docker.io" ||
             host == "index.docker.io"))) registries = some config := hf
      refine ⟨{ username := config.username, secret := config.password },
        by simp [credentials, hf], Or.inl ?_⟩
      have hp1 := List.find?_some hf2
      exact ⟨config, rfl, List.mem_of_find?_eq_some hf2,
        (hpred config).mp hp1, rfl⟩
  | none =>
      have hf2 : List.find? (fun r =>
          r.host == host || strContains host r.host ||
          (r.host == "docker.io" &&
            (host == "registry-1.docker.io" ||
             host == "index.docker.io"))) registries = none := hf
      refine ⟨{ username := "", secret := "" },
        by simp [credentials, hf], Or.inr ⟨rfl, ?_, rfl⟩⟩
      intro r hr hmatch
      exact List.find?_eq_none.mp hf2 r hr ((hpred r).mpr hmatch)

/-- C8: `add_secret` accepts data of exactly `500 * 1024` bytes and
rejects anything strictly larger with an error at insertion time;
`add_secret_string` is `add_secret` on the UTF-8 bytes, and `from_map`
fails whenever some entry is oversized. -/
theorem add_secret_size_boundary (s : SecretsServer) (id : String)
    (data : List Nat) :
    (data.length = 500 * 1024 → (add_secret s id data).1 = .ok ())
    ∧ (500 * 1024 + 1 ≤ data.length →
        ∃ msg, (add_secret s id data).1 = .error msg)
    ∧ (∀ v, add_secret_string s id v = add_secret s id (strBytes v))
    ∧ (∀ entries, (∃ p ∈ entries, MAX_SECRET_SIZE < (strBytes p.2).length) →
        ∃ msg, from_map entries = .error msg) := by
  refine ⟨?_, ?_, fun v => rfl, ?_⟩
  · intro h
    have hnot : ¬ data.length > MAX_SECRET_SIZE := by
      unfold MAX_SECRET_SIZE
      omega
    simp [add_secret, hnot]
  · intro h
    have hgt : data.length > MAX_SECRET_SIZE := by
      unfold MAX_SECRET_SIZE
      omega
    refine ⟨"Secret size " ++ toString data.length ++
      " exceeds maximum of " ++ toString MAX_SECRET_SIZE, ?_⟩
    simp [add_secret, hgt]
  · intro entries h
    exact from_map_loop_error entries _ h

/-- C8 witness: exactly 500 KiB is accepted, 500 KiB + 1 is rejected. -/
theorem add_secret_size_boundary_witness :
    (List.replicate (500 * 1024) 0).length = 500 * 1024
    ∧ (add_secret { secrets := [] } "k" (List.replicate (500 * 1024) 0)).1 =
        .ok ()
    ∧ 500 * 1024 + 1 ≤ (List.replicate (500 * 1024 + 1) 0).length
    ∧ ∃ msg, (add_secret { secrets := [] } "k"
        (List.replicate (500 * 1024 + 1) 0)).1 = .error msg := by
  have ha : (List.replicate (500 * 1024) 0).length = 500 * 1024 :=
    List.length_replicate _ _
  have hb : 500 * 1024 + 1 ≤ (List.replicate (500 * 1024 + 1) 0).length := by
    rw [List.length_replicate]
  exact ⟨ha, (add_secret_size_boundary _ "k" _).1 ha,
    hb, (add_secret_size_boundary _ "k" _).2.1 hb⟩

/-- C9: an input with exactly 2 or 3 slash-separated parts parses into a
platform whose `to_string` reproduces the input; any other number of
parts makes `Platform::parse` fail. -/
theorem platform_parse_roundtrip (s : List Char) :
    (((splitSlash s).length = 2 ∨ (splitSlash s).length = 3) →
      ∃ p, Platform.parse s = .ok p ∧ Platform.to_string p = s)
    ∧ ((splitSlash s).length ≠ 2 → (splitSlash s).length ≠ 3 →
        ∃ msg, Platform.parse s = .error msg) := by
  constructor
  · intro h
    rcases h with h2 | h3
    · obtain ⟨a, b, hab⟩ := List.length_eq_two.mp h2
      refine ⟨{ os := a, arch := b, variant := none }, ?_, ?_⟩
      · simp [Platform.parse, hab]
      · have hj := joinSlash_splitSlash s
        rw [hab] at hj
        simpa [Platform.to_string, joinSlash] using hj
    · obtain ⟨a, b, c, habc⟩ := List.length_eq_three.mp h3
      refine ⟨{ os := a, arch := b, variant := some c }, ?_, ?_⟩
      · simp [Platform.parse, habc]
      · have hj := joinSlash_splitSlash s
        rw [habc] at hj
        simpa [Platform.to_string, joinSlash] using hj
  · intro h2 h3
    cases hsp : splitSlash s with
    | nil => exact absurd hsp (splitSlash_ne_nil s)
    | cons x t =>
        rcases t with _ | ⟨y, t2⟩
        · exact ⟨_, by unfold Platform.parse; rw [hsp]⟩
        rcases t2 with _ | ⟨z, t3⟩
        · exact absurd (by rw [hsp]; simp) h2
        rcases t3 with _ | ⟨w, t4⟩
        · exact absurd (by rw [hsp]; simp) h3
        exact ⟨_, by unfold Platform.parse; rw [hsp]⟩

/-- C9 witness: a two-part input parses and round-trips. -/
theorem platform_parse_roundtrip_witness :
    ((splitSlash ['l', 'x', '/', 'a', 'b']).length = 2 ∨
      (splitSlash ['l', 'x', '/', 'a', 'b']).length = 3)
    ∧ ∃ p, Platform.parse ['l', 'x', '/', 'a', 'b'] = .ok p ∧
        Platform.to_string p = ['l', 'x', '/', 'a', 'b'] := by
  have h : (splitSlash ['l', 'x', '/', 'a', 'b']).length = 2 := by rfl
  exact ⟨Or.inl h, (platform_parse_roundtrip _).1 (Or.inl h)⟩

/-- C10: a rejected `add_secret` leaves the map untouched; an accepted
one for an already-present id replaces the old value, so a subsequent
lookup returns the new bytes. -/
theorem add_secret_error_unchanged_ok_replaces (s : SecretsServer)
    (id : String) (data : List Nat) :
    (∀ msg, (add_secret s id data).1 = .error msg →
        (add_secret s id data).2 = s)
    ∧ (∀ old, (add_secret s id data).1 = .ok () →
        mapLookup s.secrets id = some old →
        mapLookup ((add_secret s id data).2).secrets id = some data) := by
  by_cases hbig : data.length > MAX_SECRET_SIZE
  · constructor
    · intro msg _
      simp [add_secret, hbig]
    · intro old hok _
      simp [add_secret, hbig] at hok
  · constructor
    · intro msg herr
      simp [add_secret, hbig] at herr
    · intro old _ _
      simp [add_secret, hbig, mapLookup_mapInsert]

/-- C10 witness: inserting over an existing id replaces the value. -/
theorem add_secret_error_unchanged_ok_replaces_witness :
    (add_secret { secrets := [("k", [1])] } "k" [2]).1 = .ok ()
    ∧ mapLookup [("k", [1])] "k" = some [1]
    ∧ mapLookup ((add_secret { secrets := [("k", [1])] } "k" [2]).2).secrets
        "k" = some [2] := by
  have h1 : (add_secret { secrets := [("k", [1])] } "k" [2]).1 = .ok () := by
    simp [add_secret, MAX_SECRET_SIZE]
  have h2 : mapLookup [("k", [1])] "k" = some [1] := by
    simp [mapLookup]
  exact ⟨h1, h2,
    (add_secret_error_unchanged_ok_replaces _ "k" [2]).2 [1] h1 h2⟩

/-- C6 (code bug, evaluated at the failing input): with the secrets map
`{"api_key" ↦ [118]}` and a GetSecret for `"missing"`, the inner service
produces exactly the NOT_FOUND status the claim describes — code 5,
message `secret missing not found` — but on the wire the call is aborted
by a stream reset that carries no `grpc-status` trailer at all; the
unconfigured-service case is the observably identical reset, so no
distinct message reaches the daemon either.  Only the present-id case
reaches the wire, as a reply with the stored bytes and `grpc-status: 0`. -/
theorem get_secret_wire_divergence :
    get_secret { secrets := [("api_key", [118])] } "missing" =
      Except.error { code := 5, message := "secret " ++ "missing" ++ " not found" }
    ∧ getSecretWireOutcome (some { secrets := [("api_key", [118])] })
        "missing" = WireOutcome.streamReset
    ∧ (∀ r, getSecretWireOutcome (some { secrets := [("api_key", [118])] })
        "missing" ≠ WireOutcome.response r)
    ∧ getSecretWireOutcome none "missing" = WireOutcome.streamReset
    ∧ getSecretWireOutcome (some { secrets := [("api_key", [118])] })
        "api_key" = WireOutcome.response (send_success_response [118])
    ∧ (send_success_response [118]).grpcStatus = 0 := by
  have hmiss : mapLookup [("api_key", [118])] "missing" = none := by
    simp [mapLookup]
  have hhit : mapLookup [("api_key", [118])] "api_key" = some [118] := by
    simp [mapLookup]
  have hreset : getSecretWireOutcome (some { secrets := [("api_key", [118])] })
      "missing" = WireOutcome.streamReset := by
    simp [getSecretWireOutcome, handle_secrets_get_secret, get_secret, hmiss]
  refine ⟨?_, hreset, ?_, rfl, ?_, rfl⟩
  · simp [get_secret, hmiss, statusNotFound]
  · intro r hcontra
    rw [hreset] at hcontra
    exact WireOutcome.noConfusion hcontra
  · simp [getSecretWireOutcome, handle_secrets_get_secret, get_secret, hhit]
